import Mathlib

/-!
Verification of the directory-scanning and entity-modelling core of
BiliDownloadsExtractor (src/BiliDownloadsExtractor.py).

The filesystem is modelled as a finite tree of named nodes; Python paths
are lists of components; `os.listdir`, `open`+`read` and `json.loads` are
modelled as `Except`-valued operations that raise the same exceptions the
Python library functions raise (FileNotFoundError, NotADirectoryError,
json.JSONDecodeError, KeyError, IndexError).  `Media`, `Coll` and `scan`
are translated line by line from the source.
-/

mutual

/-- JSON values as produced by `json.loads`. -/
inductive JSON where
  | str (s : String)
  | num (n : Int)
  | boolean (b : Bool)
  | null
  | obj (fields : JFields)
  | arr (elems : JArr)
  deriving DecidableEq

/-- The field list of a JSON object. -/
inductive JFields where
  | nil
  | cons (k : String) (v : JSON) (rest : JFields)
  deriving DecidableEq

/-- The element list of a JSON array. -/
inductive JArr where
  | nil
  | cons (v : JSON) (rest : JArr)
  deriving DecidableEq

end

/-- Build a JSON object field list from a Lean list. -/
def JFields.ofList : List (String × JSON) → JFields
  | [] => .nil
  | (k, v) :: rest => .cons k v (JFields.ofList rest)

/-- Contents of a file as seen through `json.loads`: either text whose JSON
parse is `j`, or text that is not valid JSON. -/
inductive FileContent where
  | jsonText (j : JSON)
  | rawText (s : String)
  deriving DecidableEq

/-- A node of the filesystem: a regular file or a directory with named
children in enumeration order. -/
inductive FSNode where
  | file (content : FileContent)
  | dir (children : List (String × FSNode))

/-- Python-level exceptions raised by the library calls the core uses. -/
inductive PyErr where
  | fileNotFound (p : List String)
  | notADirectory (p : List String)
  | isADirectory (p : List String)
  | jsonDecodeError
  | keyError (k : String)
  | indexError
  deriving DecidableEq

deriving instance DecidableEq for Except

/-- First-match lookup in an association list (directory children, JSON
object fields). -/
def assocLookup {α : Type} : List (String × α) → String → Option α
  | [], _ => none
  | (n, c) :: rest, name => if n = name then some c else assocLookup rest name

/-- Resolve a path (list of components) against a node. -/
def FSNode.find : FSNode → List String → Option FSNode
  | n, [] => some n
  | .file _, _ :: _ => none
  | .dir cs, name :: rest =>
    match assocLookup cs name with
    | some c => c.find rest
    | none => none

/-- Model of `os.listdir(p)`: names of the children of directory `p`, in enumeration
order; FileNotFoundError if `p` is missing, NotADirectoryError if it is a
regular file. -/
def listdir (fs : FSNode) (p : List String) : Except PyErr (List String) :=
  match fs.find p with
  | none => .error (.fileNotFound p)
  | some (.file _) => .error (.notADirectory p)
  | some (.dir cs) => .ok (cs.map (fun c => c.1))

/-- Model of `open(p).read()`: the content of file `p`; FileNotFoundError if missing,
IsADirectoryError if `p` is a directory. -/
def readFile (fs : FSNode) (p : List String) : Except PyErr FileContent :=
  match fs.find p with
  | none => .error (.fileNotFound p)
  | some (.dir _) => .error (.isADirectory p)
  | some (.file c) => .ok c

/-- Model of `json.loads`: the parsed JSON value, or JSONDecodeError. -/
def loads : FileContent → Except PyErr JSON
  | .jsonText j => .ok j
  | .rawText _ => .error .jsonDecodeError

/-- First-match lookup among a JSON object's fields. -/
def jfLookup : JFields → String → Option JSON
  | .nil, _ => none
  | .cons n v rest, k => if n = k then some v else jfLookup rest k

/-- Python `d[k]` on a decoded JSON value: object field lookup, raising
KeyError when the key is absent (a non-object raises before key lookup;
folded into KeyError here since the core only ever indexes objects). -/
def jsonGet : JSON → String → Except PyErr JSON
  | .obj fields, k =>
    match jfLookup fields k with
    | some v => .ok v
    | none => .error (.keyError k)
  | _, k => .error (.keyError k)

/-- Render a component path back to the Windows-style string the Python
code manipulates. -/
def renderPath (p : List String) : String :=
  String.intercalate "\\" p

/-- Model of `os.path.join(a, b)` for the relative Windows paths the code uses. -/
def joinStr (a b : String) : String :=
  if a = "" then b else a ++ "\\" ++ b

/-- State of `class Media` (lines 10–45): one downloaded item.  `_path` is the item
folder, `_video`/`_audio` the joined media-file path strings, `_entry` the
decoded descriptor. -/
structure Media where
  _path : List String
  _video : String
  _audio : String
  _entry : JSON
  deriving DecidableEq

/-- Translation of `Media.__init__` (lines 14–19): set the three path fields, then open
`entry.json` inside the folder and parse it with `json.loads`. -/
def Media.init (fs : FSNode) (path : List String) : Except PyErr Media := do
  let content ← readFile fs (path ++ ["entry.json"])
  let j ← loads content
  .ok { _path := path
        _video := joinStr (renderPath path) "16\\video.m4s"
        _audio := joinStr (renderPath path) "16\\audio.m4s"
        _entry := j }

/-- Translation of `Media.title` (lines 21–23): `self._entry['page_data']['part']`. -/
def Media.title (m : Media) : Except PyErr JSON := do
  let pd ← jsonGet m._entry "page_data"
  jsonGet pd "part"

/-- Translation of `Media.video` (lines 25–27). -/
def Media.video (m : Media) : String := m._video

/-- Translation of `Media.audio` (lines 29–31). -/
def Media.audio (m : Media) : String := m._audio

/-- Translation of `Media.coll_name` (lines 33–35): `self._entry['title']`. -/
def Media.coll_name (m : Media) : Except PyErr JSON :=
  jsonGet m._entry "title"

/-- Translation of `Media.cover_url` (lines 37–39): `self._entry['cover']`. -/
def Media.cover_url (m : Media) : Except PyErr JSON :=
  jsonGet m._entry "cover"

/-- Translation of `Media.is_in_any_coll` (lines 41–42): `self.title != self.coll_name`. -/
def Media.is_in_any_coll (m : Media) : Except PyErr Bool := do
  let t ← m.title
  let c ← m.coll_name
  .ok (decide (t ≠ c))

/-- State of `class Coll` (lines 48–84): an ordered collection of `Media`. -/
structure Coll where
  _path : List String
  _l : List Media
  _name : JSON
  deriving DecidableEq

/-- The `for m in os.listdir(path)` loop of `Coll.__init__` (lines 55–57):
build a `Media` from each child name in order, aborting on the first
exception. -/
def buildMedias (fs : FSNode) (path : List String) :
    List String → Except PyErr (List Media)
  | [] => .ok []
  | m :: ms => do
    let md ← Media.init fs (path ++ [m])
    let rest ← buildMedias fs path ms
    .ok (md :: rest)

/-- Translation of `Coll.__init__` (lines 52–58): list the folder, build one `Media` per
child, then derive `_name` from `self._l[0].coll_name` (IndexError when the
list is empty, KeyError when the first descriptor lacks the key). -/
def Coll.init (fs : FSNode) (path : List String) : Except PyErr Coll := do
  let names ← listdir fs path
  let l ← buildMedias fs path names
  match l with
  | [] => .error .indexError
  | first :: _ => do
    let n ← first.coll_name
    .ok { _path := path, _l := l, _name := n }

/-- Translation of `Coll.append` (lines 60–61). -/
def Coll.append (c : Coll) (media : Media) : Coll :=
  { c with _l := c._l ++ [media] }

/-- Translation of `Coll.name` (lines 63–65). -/
def Coll.name (c : Coll) : JSON := c._name

/-- Translation of `Coll.__len__` (lines 71–72). -/
def Coll.length (c : Coll) : Nat := c._l.length

/-- The accumulation loop of `Coll.video_titles` (lines 76–77). -/
def titlesOf : List Media → Except PyErr (List JSON)
  | [] => .ok []
  | m :: ms => do
    let t ← m.title
    let rest ← titlesOf ms
    .ok (t :: rest)

/-- Translation of `Coll.video_titles` (lines 74–78): the `title` of each member in stored
order (each access may raise KeyError). -/
def Coll.video_titles (c : Coll) : Except PyErr (List JSON) :=
  titlesOf c._l

/-- An entry of the scan result: either a lone `Media` or a `Coll`. -/
inductive Entry where
  | media (m : Media)
  | coll (c : Coll)
  deriving DecidableEq

/-- The body of the `scan` loop for one child `d` (lines 96–101): list the
child directory; exactly one entry means a lone `Media` built from that one
grandchild, anything else means a `Coll` built from the child itself. -/
def scanStep (fs : FSNode) (dPath : List String) : Except PyErr Entry := do
  let c ← listdir fs dPath
  match c with
  | [g] => do
    let m ← Media.init fs (dPath ++ [g])
    .ok (.media m)
  | _ => do
    let co ← Coll.init fs dPath
    .ok (.coll co)

/-- The `for d in os.listdir(path)` loop of `scan` (lines 95–101), appending
one entry per child in order and aborting on the first exception. -/
def scanList (fs : FSNode) (root : List String) :
    List String → Except PyErr (List Entry)
  | [] => .ok []
  | d :: ds => do
    let e ← scanStep fs (root ++ [d])
    let rest ← scanList fs root ds
    .ok (e :: rest)

/-- Translation of `scan` (lines 87–102): list the root and classify each child. -/
def scan (fs : FSNode) (path : List String) : Except PyErr (List Entry) := do
  let ds ← listdir fs path
  scanList fs path ds

/-! ## Heap model for `Coll.content` (lines 67–69)

`content` returns `deepcopy(self._l)`.  Aliasing and mutation are invisible
to pure values, so the snapshot guarantee is stated over an explicit heap:
`Media` objects live at `Nat` addresses, a collection's state is the list
of addresses its `_l` holds, and `deepcopy` materialises the pointed-to
values at fresh addresses while leaving every existing cell untouched. -/

/-- Overwrite one heap cell (a mutation of the `Media` object at `a`). -/
def hupdate (h : Nat → Media) (a : Nat) (v : Media) : Nat → Media :=
  fun x => if x = a then v else h x

/-- The heap-level state of a `Coll`: the addresses its `_l` refers to. -/
structure CollObj where
  elems : List Nat

/-- The list of `Media` values a collection's `_l` denotes under heap `h`. -/
def readColl (h : Nat → Media) (c : CollObj) : List Media :=
  c.elems.map h

/-- The fresh addresses `next, next+1, …` used by a deepcopy of `n` cells. -/
def deepcopyAddrs (next n : Nat) : List Nat :=
  (List.range n).map (fun i => next + i)

/-- The heap after `deepcopy(self._l)`: cell `next + i` holds a copy of the
value of the `i`-th member; all other cells are unchanged. -/
def deepcopyHeap (h : Nat → Media) (c : CollObj) (next : Nat) : Nat → Media :=
  fun x =>
    if next ≤ x then
      match c.elems[x - next]? with
      | some a => h a
      | none => h x
    else h x

/-- Translation of `Coll.content` (lines 67–69) in the heap model: the returned snapshot
object (fresh addresses) together with the heap after the copy. -/
def contentSnapshot (h : Nat → Media) (c : CollObj) (next : Nat) :
    CollObj × (Nat → Media) :=
  (⟨deepcopyAddrs next c.elems.length⟩, deepcopyHeap h c next)

/-! ## Concrete fixtures used by witnesses and counterexamples -/

/-- A descriptor with the three keys the code reads. -/
def descriptorJSON (part coll cover : String) : JSON :=
  .obj (JFields.ofList
    [("title", .str coll),
     ("page_data", .obj (JFields.ofList [("part", .str part)])),
     ("cover", .str cover)])

/-- An item folder: `entry.json` plus the quality-tier media folder. -/
def itemDir (part coll : String) : FSNode :=
  .dir [("entry.json", .file (.jsonText (descriptorJSON part coll "u"))),
        ("16", .dir [("video.m4s", .file (.rawText "v")),
                     ("audio.m4s", .file (.rawText "a"))])]

/-- The spec's concrete scenario: `G1` with single item, `G2` with two. -/
def fsRoot : FSNode :=
  .dir [("G1", .dir [("a1", itemDir "EP1" "EP1")]),
        ("G2", .dir [("b1", itemDir "EP1" "Show"),
                     ("b2", itemDir "EP2" "Show")])]

/-- An item folder whose descriptor is valid JSON lacking every key. -/
def fsEmptyObj : FSNode :=
  .dir [("entry.json", .file (.jsonText (.obj .nil)))]

/-- An item folder whose descriptor is not valid JSON. -/
def fsRawDesc : FSNode :=
  .dir [("entry.json", .file (.rawText "oops"))]

/-- An item folder with no descriptor file at all. -/
def fsNoDesc : FSNode :=
  .dir [("16", .dir [("video.m4s", .file (.rawText "v"))])]

/-- A root whose single group's single item is missing its descriptor. -/
def fsMissingDesc : FSNode :=
  .dir [("G1", .dir [("a1", fsNoDesc)])]

/-- A concrete `Media` value as `Media.__init__` builds it. -/
def mediaOf (p : List String) (part coll cover : String) : Media :=
  { _path := p
    _video := joinStr (renderPath p) "16\\video.m4s"
    _audio := joinStr (renderPath p) "16\\audio.m4s"
    _entry := descriptorJSON part coll cover }

/-- The scanned item of group `G1` of `fsRoot`. -/
def mG1 : Media := mediaOf ["G1", "a1"] "EP1" "EP1" "u"

/-- The scanned collection of group `G2` of `fsRoot`. -/
def collG2 : Coll :=
  ⟨["G2"],
   [mediaOf ["G2", "b1"] "EP1" "Show" "u", mediaOf ["G2", "b2"] "EP2" "Show" "u"],
   .str "Show"⟩

/-- The catalog `scan` returns on `fsRoot`. -/
def lRoot : List Entry := [.media mG1, .coll collG2]

/-- A group directory with two item-subfolders sharing one collection. -/
def fsG2 : FSNode :=
  .dir [("b1", itemDir "EP1" "Show"), ("b2", itemDir "EP2" "Show")]

/-- An item folder holding only the descriptor, no media files at all. -/
def fsDescOnly : FSNode :=
  .dir [("entry.json", .file (.jsonText (descriptorJSON "EP1" "EP1" "u")))]

/-- A concrete `Media` value for the heap-model witness. -/
def mA : Media := mediaOf ["a"] "A" "A" "u"

/-- A second, distinct `Media` value for the heap-model witness. -/
def mB : Media := mediaOf ["b"] "B" "B" "u"

/-- A concrete heap for the snapshot witness: every cell holds `mA`. -/
def hConc : Nat → Media := fun _ => mA

/-- A concrete collection state holding addresses 0 and 1. -/
def cConc : CollObj := ⟨[0, 1]⟩

/-! ## General lemmas about the embedded operations -/

/-- Value of `Media.__init__` when the descriptor file parses. -/
theorem Media.init_ok (fs : FSNode) (p : List String) (j : JSON)
    (h : readFile fs (p ++ ["entry.json"]) = .ok (.jsonText j)) :
    Media.init fs p = .ok
      { _path := p
        _video := joinStr (renderPath p) "16\\video.m4s"
        _audio := joinStr (renderPath p) "16\\audio.m4s"
        _entry := j } := by
  simp [Media.init, h, loads, Bind.bind, Except.bind]

/-- Value of `Media.__init__` when the descriptor file is missing. -/
theorem Media.init_notFound (fs : FSNode) (p : List String)
    (h : FSNode.find fs (p ++ ["entry.json"]) = none) :
    Media.init fs p = .error (.fileNotFound (p ++ ["entry.json"])) := by
  simp [Media.init, readFile, h, Bind.bind, Except.bind]

/-- Value of `Media.__init__` when the descriptor is not valid JSON. -/
theorem Media.init_raw (fs : FSNode) (p : List String) (s : String)
    (h : readFile fs (p ++ ["entry.json"]) = .ok (.rawText s)) :
    Media.init fs p = .error .jsonDecodeError := by
  simp [Media.init, h, loads, Bind.bind, Except.bind]

/-- Construction reads nothing but the descriptor file: two filesystems
agreeing on it produce the same result. -/
theorem Media.init_congr (fs1 fs2 : FSNode) (p : List String)
    (h : readFile fs1 (p ++ ["entry.json"]) = readFile fs2 (p ++ ["entry.json"])) :
    Media.init fs1 p = Media.init fs2 p := by
  simp [Media.init, h, Bind.bind, Except.bind]

/-- Shape of a successfully constructed `Media`. -/
theorem Media.init_ok_entry (fs : FSNode) (p : List String) (m : Media)
    (hm : Media.init fs p = .ok m) :
    m._path = p ∧
    m._video = joinStr (renderPath p) "16\\video.m4s" ∧
    m._audio = joinStr (renderPath p) "16\\audio.m4s" ∧
    readFile fs (p ++ ["entry.json"]) = .ok (.jsonText m._entry) := by
  revert hm
  cases hr : readFile fs (p ++ ["entry.json"]) with
  | error e => simp [Media.init, hr, Bind.bind, Except.bind]
  | ok c =>
    cases c with
    | jsonText j =>
      intro hm
      simp [Media.init, hr, loads, Bind.bind, Except.bind] at hm
      simp [← hm]
    | rawText s => simp [Media.init, hr, loads, Bind.bind, Except.bind]

/-- The scan loop body propagates a failed child listing. -/
theorem scanStep_err (fs : FSNode) (dp : List String) (e : PyErr)
    (h : listdir fs dp = .error e) : scanStep fs dp = .error e := by
  simp [scanStep, h, Bind.bind, Except.bind]

/-- With exactly one child, the scan loop body builds a `Media` from it. -/
theorem scanStep_single (fs : FSNode) (dp : List String) (g : String)
    (h : listdir fs dp = .ok [g]) :
    scanStep fs dp = Except.map Entry.media (Media.init fs (dp ++ [g])) := by
  cases hm : Media.init fs (dp ++ [g]) with
  | error e => simp [scanStep, h, hm, Bind.bind, Except.bind, Except.map]
  | ok m => simp [scanStep, h, hm, Bind.bind, Except.bind, Except.map]

/-- With any other child count, the scan loop body builds a `Coll`. -/
theorem scanStep_multi (fs : FSNode) (dp : List String) (cs : List String)
    (h : listdir fs dp = .ok cs) (h1 : cs.length ≠ 1) :
    scanStep fs dp = Except.map Entry.coll (Coll.init fs dp) := by
  match cs, h1 with
  | [], _ =>
    cases hc : Coll.init fs dp with
    | error e => simp [scanStep, h, hc, Bind.bind, Except.bind, Except.map]
    | ok co => simp [scanStep, h, hc, Bind.bind, Except.bind, Except.map]
  | [g], h1 => exact absurd rfl h1
  | a :: b :: t, _ =>
    cases hc : Coll.init fs dp with
    | error e => simp [scanStep, h, hc, Bind.bind, Except.bind, Except.map]
    | ok co => simp [scanStep, h, hc, Bind.bind, Except.bind, Except.map]

/-- Value of `Coll.__init__` on a folder with no children. -/
theorem Coll.init_empty (fs : FSNode) (p : List String)
    (h : listdir fs p = .ok []) : Coll.init fs p = .error .indexError := by
  simp [Coll.init, h, buildMedias, Bind.bind, Except.bind]

/-- Value of `Coll.__init__` when every member constructs and the first
member's collection title reads back. -/
theorem Coll.init_ok_build (fs : FSNode) (p : List String) (cs : List String)
    (m0 : Media) (rest : List Media) (nm : JSON)
    (h : listdir fs p = .ok cs) (hb : buildMedias fs p cs = .ok (m0 :: rest))
    (hn : m0.coll_name = .ok nm) :
    Coll.init fs p = .ok ⟨p, m0 :: rest, nm⟩ := by
  simp [Coll.init, h, hb, hn, Bind.bind, Except.bind]

/-- The member-construction loop succeeds exactly member by member, in
enumeration order. -/
theorem buildMedias_ok_spec (fs : FSNode) (p : List String) :
    ∀ cs ms, buildMedias fs p cs = .ok ms →
      ms.length = cs.length ∧
      ∀ (i : Nat) (c : String), cs[i]? = some c →
        ∃ m, ms[i]? = some m ∧ Media.init fs (p ++ [c]) = .ok m := by
  intro cs
  induction cs with
  | nil => intro ms h; simp [buildMedias] at h; simp [← h]
  | cons c cs ih =>
    intro ms h
    cases hm : Media.init fs (p ++ [c]) with
    | error e => simp [buildMedias, hm, Bind.bind, Except.bind] at h
    | ok m =>
      cases hr : buildMedias fs p cs with
      | error e => simp [buildMedias, hm, hr, Bind.bind, Except.bind] at h
      | ok rest =>
        simp [buildMedias, hm, hr, Bind.bind, Except.bind] at h
        obtain ⟨hlen, hel⟩ := ih rest hr
        subst h
        refine ⟨by simp [hlen], ?_⟩
        intro i d hi
        match i, hi with
        | 0, hi => exact ⟨m, by simp, by simp at hi; simp [← hi, hm]⟩
        | Nat.succ n, hi =>
          simp at hi
          obtain ⟨m2, hm2, hinit⟩ := hel n d hi
          exact ⟨m2, by simpa using hm2, hinit⟩

/-- The scan loop succeeds exactly child by child, in enumeration order. -/
theorem scanList_ok_spec (fs : FSNode) (root : List String) :
    ∀ ds l, scanList fs root ds = .ok l →
      l.length = ds.length ∧
      ∀ (i : Nat) (d : String), ds[i]? = some d →
        ∃ e, scanStep fs (root ++ [d]) = .ok e ∧ l[i]? = some e := by
  intro ds
  induction ds with
  | nil => intro l h; simp [scanList] at h; simp [← h]
  | cons d ds ih =>
    intro l h
    cases hs : scanStep fs (root ++ [d]) with
    | error e => simp [scanList, hs, Bind.bind, Except.bind] at h
    | ok e =>
      cases hr : scanList fs root ds with
      | error er => simp [scanList, hs, hr, Bind.bind, Except.bind] at h
      | ok rest =>
        simp [scanList, hs, hr, Bind.bind, Except.bind] at h
        obtain ⟨hlen, hel⟩ := ih rest hr
        subst h
        refine ⟨by simp [hlen], ?_⟩
        intro i d2 hi
        match i, hi with
        | 0, hi => exact ⟨e, by simp at hi; simp [← hi, hs], by simp⟩
        | Nat.succ n, hi =>
          simp at hi
          obtain ⟨e2, he2, hl2⟩ := hel n d2 hi
          exact ⟨e2, he2, by simpa using hl2⟩

/-- The scan loop propagates the first failing child's error unchanged. -/
theorem scanList_err_mid (fs : FSNode) (root : List String) :
    ∀ ds1 (d : String) (ds2 : List String) (er : PyErr),
      (∀ d1 ∈ ds1, ∃ e, scanStep fs (root ++ [d1]) = .ok e) →
      scanStep fs (root ++ [d]) = .error er →
      scanList fs root (ds1 ++ d :: ds2) = .error er := by
  intro ds1
  induction ds1 with
  | nil => intro d ds2 er _ hf; simp [scanList, hf, Bind.bind, Except.bind]
  | cons d1 ds1 ih =>
    intro d ds2 er hok hf
    obtain ⟨e, he⟩ := hok d1 (by simp)
    have hrest := ih d ds2 er (fun x hx => hok x (by simp [hx])) hf
    simp [scanList, he, hrest, Bind.bind, Except.bind]

/-- A deepcopy leaves every cell below the allocation point untouched. -/
theorem deepcopyHeap_low (h : Nat → Media) (c : CollObj) (next : Nat)
    (a : Nat) (ha : a < next) : deepcopyHeap h c next a = h a := by
  simp [deepcopyHeap, Nat.not_le.mpr ha]

/-- A deepcopy fills cell `next + i` with the `i`-th member's value. -/
theorem deepcopyHeap_fresh (h : Nat → Media) (c : CollObj) (next : Nat)
    (i : Nat) (hi : i < c.elems.length) :
    deepcopyHeap h c next (next + i) = h (c.elems.get ⟨i, hi⟩) := by
  simp [deepcopyHeap, Nat.le_add_right, Nat.add_sub_cancel_left,
    List.getElem?_eq_getElem hi]

/-! ## Claims -/

/-- C1: for every root directory, `scan` classifies each immediate child by
its child count — a child whose own listing has exactly one entry yields a
`Media` built from that one grandchild folder, any other count yields a
`Coll` built from the child itself — and the returned catalog has exactly
one entry per child, in the order the root's children were enumerated. -/
theorem scan_classifies_children (fs : FSNode) (root : List String)
    (ds : List String) (l : List Entry)
    (hds : listdir fs root = .ok ds) (hl : scan fs root = .ok l) :
    l.length = ds.length ∧
    ∀ (i : Nat) (d : String), ds[i]? = some d →
      ∃ cs, listdir fs (root ++ [d]) = .ok cs ∧
        ((∃ g m, cs = [g] ∧ Media.init fs (root ++ [d] ++ [g]) = .ok m ∧
            l[i]? = some (.media m)) ∨
         (cs.length ≠ 1 ∧ ∃ co, Coll.init fs (root ++ [d]) = .ok co ∧
            l[i]? = some (.coll co))) := by
  have hsl : scanList fs root ds = .ok l := by
    simpa [scan, hds, Bind.bind, Except.bind] using hl
  obtain ⟨hlen, hel⟩ := scanList_ok_spec fs root ds l hsl
  refine ⟨hlen, ?_⟩
  intro i d hi
  obtain ⟨e, he, hle⟩ := hel i d hi
  cases hld : listdir fs (root ++ [d]) with
  | error er =>
    rw [scanStep_err fs (root ++ [d]) er hld] at he
    cases he
  | ok cs =>
    refine ⟨cs, rfl, ?_⟩
    by_cases h1 : cs.length = 1
    · left
      obtain ⟨g, rfl⟩ : ∃ g, cs = [g] := by
        match cs, h1 with
        | [g], _ => exact ⟨g, rfl⟩
        | [], h1 => simp at h1
        | a :: b :: t, h1 => simp at h1
      rw [scanStep_single fs (root ++ [d]) g hld] at he
      cases hm : Media.init fs (root ++ [d] ++ [g]) with
      | error er => rw [hm] at he; simp [Except.map] at he
      | ok m =>
        rw [hm] at he
        simp [Except.map] at he
        exact ⟨g, m, rfl, hm, by rw [hle, ← he]⟩
    · right
      rw [scanStep_multi fs (root ++ [d]) cs hld h1] at he
      cases hc : Coll.init fs (root ++ [d]) with
      | error er => rw [hc] at he; simp [Except.map] at he
      | ok co =>
        rw [hc] at he
        simp [Except.map] at he
        exact ⟨h1, co, rfl, by rw [hle, ← he]⟩

/-- Witness for C1 on the two-group fixture root. -/
theorem scan_classifies_children_witness :
    scan fsRoot [] = .ok lRoot ∧
    lRoot.length = (["G1", "G2"] : List String).length :=
  ⟨by decide,
   (scan_classifies_children fsRoot [] ["G1", "G2"] lRoot
     (by decide) (by decide)).1⟩

/-- C2: for an item folder whose descriptor parses (and carries the part
and collection titles), `title` returns the descriptor's part title and
`is_in_any_coll` returns `false` exactly when the part title equals the
collection title. -/
theorem media_title_membership (fs : FSNode) (p : List String)
    (j pd pt ct : JSON) (m : Media)
    (hfile : readFile fs (p ++ ["entry.json"]) = .ok (.jsonText j))
    (hm : Media.init fs p = .ok m)
    (hpd : jsonGet j "page_data" = .ok pd)
    (hpt : jsonGet pd "part" = .ok pt)
    (hct : jsonGet j "title" = .ok ct) :
    m.title = .ok pt ∧ m.coll_name = .ok ct ∧
    (m.is_in_any_coll = .ok false ↔ pt = ct) := by
  have h4 := (Media.init_ok_entry fs p m hm).2.2.2
  have hentry : m._entry = j := by
    have h5 := hfile.symm.trans h4
    simp at h5
    exact h5.symm
  have ht : m.title = .ok pt := by
    simp [Media.title, hentry, hpd, hpt, Bind.bind, Except.bind]
  have hc : m.coll_name = .ok ct := by
    simp [Media.coll_name, hentry, hct]
  refine ⟨ht, hc, ?_⟩
  simp [Media.is_in_any_coll, ht, hc, Bind.bind, Except.bind,
    decide_eq_false_iff_not]

/-- Witness for C2 on a collection member whose titles differ. -/
theorem media_title_membership_witness :
    (mediaOf [] "EP1" "Show" "u").title = .ok (.str "EP1") ∧
    ((mediaOf [] "EP1" "Show" "u").is_in_any_coll = .ok false ↔
      (JSON.str "EP1") = (JSON.str "Show")) := by
  have h := media_title_membership (itemDir "EP1" "Show") []
    (descriptorJSON "EP1" "Show" "u")
    (.obj (JFields.ofList [("part", .str "EP1")])) (.str "EP1") (.str "Show")
    (mediaOf [] "EP1" "Show" "u")
    (by decide) (by decide) (by decide) (by decide) (by decide)
  exact ⟨h.1, h.2.2⟩

/-- C3: a group directory with at least two item-subfolders, all of whose
members construct and whose first member's collection title reads back, is
classified as a `Coll` whose length is the child count, whose `name` is the
first enumerated member's collection title, and whose members sit in
enumeration order. -/
theorem scan_group_many_children (fs : FSNode) (gpath : List String)
    (cs : List String) (m0 : Media) (rest : List Media) (nm : JSON)
    (hcs : listdir fs gpath = .ok cs)
    (hN : 2 ≤ cs.length)
    (hms : buildMedias fs gpath cs = .ok (m0 :: rest))
    (hnm : m0.coll_name = .ok nm) :
    scanStep fs gpath = .ok (.coll ⟨gpath, m0 :: rest, nm⟩) ∧
    Coll.length ⟨gpath, m0 :: rest, nm⟩ = cs.length ∧
    Coll.name ⟨gpath, m0 :: rest, nm⟩ = nm ∧
    ∀ (i : Nat) (c : String), cs[i]? = some c →
      ∃ m, (m0 :: rest)[i]? = some m ∧ Media.init fs (gpath ++ [c]) = .ok m := by
  have h1 : cs.length ≠ 1 := by omega
  have hco := Coll.init_ok_build fs gpath cs m0 rest nm hcs hms hnm
  obtain ⟨hlen, hel⟩ := buildMedias_ok_spec fs gpath cs (m0 :: rest) hms
  refine ⟨?_, ?_, rfl, hel⟩
  · rw [scanStep_multi fs gpath cs hcs h1, hco]; rfl
  · simpa [Coll.length] using hlen

/-- Witness for C3 on a two-member group directory. -/
theorem scan_group_many_children_witness :
    scanStep fsG2 [] = .ok (.coll
      ⟨[], [mediaOf ["b1"] "EP1" "Show" "u", mediaOf ["b2"] "EP2" "Show" "u"],
       .str "Show"⟩) :=
  (scan_group_many_children fsG2 [] ["b1", "b2"]
    (mediaOf ["b1"] "EP1" "Show" "u") [mediaOf ["b2"] "EP2" "Show" "u"]
    (.str "Show") (by decide) (by decide) (by decide) (by decide)).1

/-- C4, counterexample to the claim as stated: a descriptor that is valid
JSON but lacks every required key does not make construction fail — the
`Media` is built successfully. -/
theorem media_init_missing_keys_cex :
    Media.init fsEmptyObj [] =
      .ok { _path := [], _video := "16\\video.m4s",
            _audio := "16\\audio.m4s", _entry := .obj .nil } := by decide

/-- C4, amended: construction fails with FileNotFoundError (the spec's
DescriptorNotFound) when the descriptor file is missing and with
JSONDecodeError (DescriptorMalformed) when its content is not valid JSON;
when the content is valid JSON construction succeeds even if required keys
are absent. -/
theorem media_init_failure_modes (fs : FSNode) (p : List String) :
    (FSNode.find fs (p ++ ["entry.json"]) = none →
      Media.init fs p = .error (.fileNotFound (p ++ ["entry.json"]))) ∧
    (∀ s, readFile fs (p ++ ["entry.json"]) = .ok (.rawText s) →
      Media.init fs p = .error .jsonDecodeError) ∧
    (∀ j, readFile fs (p ++ ["entry.json"]) = .ok (.jsonText j) →
      ∃ m, Media.init fs p = .ok m) :=
  ⟨Media.init_notFound fs p,
   fun s h => Media.init_raw fs p s h,
   fun j h => ⟨_, Media.init_ok fs p j h⟩⟩

/-- Witness for the amended C4 on three concrete item folders. -/
theorem media_init_failure_modes_witness :
    Media.init fsNoDesc [] = .error (.fileNotFound ["entry.json"]) ∧
    Media.init fsRawDesc [] = .error .jsonDecodeError ∧
    ∃ m, Media.init fsEmptyObj [] = .ok m :=
  ⟨(media_init_failure_modes fsNoDesc []).1 rfl,
   (media_init_failure_modes fsRawDesc []).2.1 "oops" (by decide),
   (media_init_failure_modes fsEmptyObj []).2.2 (.obj .nil) (by decide)⟩

/-- C5: when every earlier child of the root classifies successfully and
some child's classification raises, `scan` re-raises that same error
untranslated and returns no catalog at all. -/
theorem scan_propagates_nested_error (fs : FSNode) (root : List String)
    (ds1 ds2 : List String) (d : String) (e : PyErr)
    (hroot : listdir fs root = .ok (ds1 ++ d :: ds2))
    (hok : ∀ d1 ∈ ds1, ∃ en, scanStep fs (root ++ [d1]) = .ok en)
    (hfail : scanStep fs (root ++ [d]) = .error e) :
    scan fs root = .error e ∧ ∀ l, scan fs root ≠ .ok l := by
  have h := scanList_err_mid fs root ds1 d ds2 e hok hfail
  have hs : scan fs root = .error e := by
    simp [scan, hroot, Bind.bind, Except.bind, h]
  exact ⟨hs, fun l hl => by rw [hs] at hl; cases hl⟩

/-- Witness for C5: a root whose only item lacks its descriptor makes
`scan` raise FileNotFoundError at the descriptor path. -/
theorem scan_propagates_nested_error_witness :
    scan fsMissingDesc [] = .error (.fileNotFound ["G1", "a1", "entry.json"]) :=
  (scan_propagates_nested_error fsMissingDesc [] [] [] "G1"
    (.fileNotFound ["G1", "a1", "entry.json"])
    (by decide) (by simp) (by decide)).1

/-- C6: `Coll.content` is a deepcopy — taking the snapshot does not change
what the collection's members read as, the snapshot reads back the same
member values, and mutating any cell the snapshot points to leaves the
collection's subsequent reads unchanged. -/
theorem coll_content_snapshot_isolation (h : Nat → Media) (c : CollObj)
    (next : Nat) (hbound : ∀ a ∈ c.elems, a < next) :
    readColl (contentSnapshot h c next).2 c = readColl h c ∧
    readColl (contentSnapshot h c next).2 (contentSnapshot h c next).1 =
      readColl h c ∧
    ∀ a ∈ (contentSnapshot h c next).1.elems, ∀ v : Media,
      readColl (hupdate (contentSnapshot h c next).2 a v) c =
        readColl (contentSnapshot h c next).2 c := by
  refine ⟨?_, ?_, ?_⟩
  · exact List.map_congr_left fun a ha => deepcopyHeap_low h c next a (hbound a ha)
  · show (deepcopyAddrs next c.elems.length).map (deepcopyHeap h c next) =
      c.elems.map h
    unfold deepcopyAddrs
    rw [List.map_map]
    refine List.ext_getElem (by simp) ?_
    intro i h1 h2
    simp only [List.getElem_map, List.getElem_range, Function.comp]
    have hi : i < c.elems.length := by simpa using h2
    rw [deepcopyHeap_fresh h c next i hi]
    rfl
  · intro a ha v
    simp only [contentSnapshot, deepcopyAddrs, List.mem_map, List.mem_range] at ha
    obtain ⟨i, _, hia⟩ := ha
    refine List.map_congr_left fun b hb => ?_
    have hbn : b < next := hbound b hb
    have : b ≠ a := by omega
    simp [hupdate, this]

/-- Witness for C6: overwriting a snapshot cell leaves the collection's
reads at their original values. -/
theorem coll_content_snapshot_isolation_witness :
    readColl (hupdate (contentSnapshot hConc cConc 2).2 2 mB) cConc =
      [mA, mA] := by
  have h := coll_content_snapshot_isolation hConc cConc 2 (by decide)
  rw [h.2.2 2 (by decide) mB, h.1]
  decide

/-- C7: `Media` construction depends on nothing but the descriptor file —
in particular it never checks that the media files exist — and on success
the video/audio paths are the folder path joined with the fixed hardcoded
quality-tier segment and literal filenames. -/
theorem media_paths_pure (fs1 fs2 : FSNode) (p : List String)
    (hsame : readFile fs1 (p ++ ["entry.json"]) =
      readFile fs2 (p ++ ["entry.json"])) :
    Media.init fs1 p = Media.init fs2 p ∧
    ∀ m, Media.init fs1 p = .ok m →
      m.video = joinStr (renderPath p) "16\\video.m4s" ∧
      m.audio = joinStr (renderPath p) "16\\audio.m4s" := by
  refine ⟨Media.init_congr fs1 fs2 p hsame, ?_⟩
  intro m hm
  obtain ⟨_, hv, ha, _⟩ := Media.init_ok_entry fs1 p m hm
  exact ⟨hv, ha⟩

/-- Witness for C7: deleting the media folder entirely does not change the
construction result, and the video path is the literal joined string. -/
theorem media_paths_pure_witness :
    Media.init (itemDir "EP1" "EP1") [] = Media.init fsDescOnly [] ∧
    (mediaOf [] "EP1" "EP1" "u").video = "16\\video.m4s" := by
  have h := media_paths_pure (itemDir "EP1" "EP1") fsDescOnly [] (by decide)
  exact ⟨h.1, ((h.2 (mediaOf [] "EP1" "EP1" "u") (by decide)).1).trans (by decide)⟩

/-- C8: calling `scan` on a root that does not exist raises
FileNotFoundError (the spec's ScanRootNotFound), on a root that is a
regular file raises NotADirectoryError, and in both cases no catalog is
produced. -/
theorem scan_root_not_found (fs : FSNode) (root : List String) :
    (FSNode.find fs root = none →
      scan fs root = .error (.fileNotFound root) ∧
      ∀ l, scan fs root ≠ .ok l) ∧
    (∀ c, FSNode.find fs root = some (.file c) →
      scan fs root = .error (.notADirectory root) ∧
      ∀ l, scan fs root ≠ .ok l) := by
  constructor
  · intro h
    have hs : scan fs root = .error (.fileNotFound root) := by
      simp [scan, listdir, h, Bind.bind, Except.bind]
    exact ⟨hs, fun l hl => by rw [hs] at hl; cases hl⟩
  · intro c h
    have hs : scan fs root = .error (.notADirectory root) := by
      simp [scan, listdir, h, Bind.bind, Except.bind]
    exact ⟨hs, fun l hl => by rw [hs] at hl; cases hl⟩

/-- Witness for C8 on a missing root and on a file root. -/
theorem scan_root_not_found_witness :
    scan (.dir []) ["x"] = .error (.fileNotFound ["x"]) ∧
    scan (.dir [("f", .file (.rawText "z"))]) ["f"] =
      .error (.notADirectory ["f"]) :=
  ⟨((scan_root_not_found (.dir []) ["x"]).1 rfl).1,
   ((scan_root_not_found (.dir [("f", .file (.rawText "z"))]) ["f"]).2
     (.rawText "z") rfl).1⟩

/-- C9: constructing a `Coll` from a folder with zero children fails with
IndexError (the spec's EmptyCollection) at name derivation, and no
collection object is produced. -/
theorem coll_empty_folder_fails (fs : FSNode) (p : List String)
    (h : listdir fs p = .ok []) :
    Coll.init fs p = .error .indexError ∧ ∀ co, Coll.init fs p ≠ .ok co := by
  have hc := Coll.init_empty fs p h
  exact ⟨hc, fun co hco => by rw [hc] at hco; cases hco⟩

/-- Witness for C9 on an empty directory. -/
theorem coll_empty_folder_fails_witness :
    Coll.init (.dir []) [] = .error .indexError :=
  (coll_empty_folder_fails (.dir []) [] (by decide)).1

/-- C10: when the descriptor file exists and is valid JSON, construction
succeeds whatever keys the JSON has; each accessor computes the raw lookup
on the stored descriptor, so a missing required key surfaces only at the
first call of the corresponding accessor. -/
theorem media_init_defers_key_errors (fs : FSNode) (p : List String) (j : JSON)
    (hfile : readFile fs (p ++ ["entry.json"]) = .ok (.jsonText j)) :
    ∃ m, Media.init fs p = .ok m ∧
      m.title = (do
        let pd ← jsonGet j "page_data"
        jsonGet pd "part") ∧
      m.coll_name = jsonGet j "title" ∧
      m.cover_url = jsonGet j "cover" ∧
      ∀ k : String, jsonGet j "title" = .error (.keyError k) →
        m.coll_name = .error (.keyError k) := by
  refine ⟨_, Media.init_ok fs p j hfile, rfl, rfl, rfl, ?_⟩
  intro k hk
  simpa [Media.coll_name] using hk

/-- Witness for C10: an empty-object descriptor constructs fine and errors
with KeyError only at the accessors. -/
theorem media_init_defers_key_errors_witness :
    ∃ m, Media.init fsEmptyObj [] = .ok m ∧
      m.title = .error (.keyError "page_data") ∧
      m.coll_name = .error (.keyError "title") := by
  obtain ⟨m, hm, ht, hc, _, _⟩ :=
    media_init_defers_key_errors fsEmptyObj [] (.obj .nil) (by decide)
  exact ⟨m, hm, by rw [ht]; decide, by rw [hc]; decide⟩
